import Mathlib

/-!
Shallow embedding of the Stock-Dashboard application (`app.py`): the
market-data fetch and data-cleaning pipeline, the news scraper, the
key-metric computation and the table rendering, together with theorems
settling the specification claims about them.

Numeric cell values are modelled as `Option ℚ`, where `none` plays the role
of the floating-point NaN / a missing value.
-/

/-- Raw cell as delivered by the market-data provider, before the
`pd.to_numeric(col, errors='coerce')` coercion: a numeric value, a
non-numeric value (which the coercion turns into null), or a missing value. -/
inductive RawCell
  | num (q : ℚ)
  | nonnum
  | null
deriving DecidableEq

/-- Raw OHLCV row as delivered by the provider, one per trading day. -/
structure RawRow where
  date : ℤ
  open_ : RawCell
  high : RawCell
  low : RawCell
  close : RawCell
  volume : RawCell
deriving DecidableEq

/-- Cleaned OHLCV row: each of the five numeric fields is numeric or null
(`none` models NaN), as produced by the coercion step. -/
structure Row where
  date : ℤ
  open_ : Option ℚ
  high : Option ℚ
  low : Option ℚ
  close : Option ℚ
  volume : Option ℚ
deriving DecidableEq

/-- Embeds `pd.to_numeric(col, errors='coerce')` on one cell: numeric values
pass through, any non-numeric value becomes null, and missing stays null. -/
def toNumericCell : RawCell → Option ℚ
  | .num q => some q
  | .nonnum => none
  | .null => none

/-- Coerces the five numeric fields of a raw row (app.py lines 100-104). -/
def coerceRow (r : RawRow) : Row :=
  { date := r.date
    open_ := toNumericCell r.open_
    high := toNumericCell r.high
    low := toNumericCell r.low
    close := toNumericCell r.close
    volume := toNumericCell r.volume }

/-- A row survives `dropna(subset=['Open','High','Low','Close'], how='all')`
iff at least one of open/high/low/close is non-null (app.py line 107). -/
def keepRow (r : Row) : Bool :=
  r.open_.isSome || r.high.isSome || r.low.isSome || r.close.isSome

/-- The module-level data-cleaning block (app.py lines 96-107): coerce the
numeric columns, then drop the rows whose open/high/low/close are all null.
The MultiIndex flattening of lines 97-98 acts on column labels only and is
absorbed by the fixed field names of `RawRow`. -/
def cleanData (rows : List RawRow) : List Row :=
  (rows.map coerceRow).filter keepRow

/-- Outcome of the `yf.download` call inside `get_stock_data`: either a
table of rows, or a raised exception carrying its message. -/
inductive DownloadResult
  | table (rows : List RawRow)
  | exn (msg : String)
deriving DecidableEq

/-- A user-facing message emitted through `st.warning` or `st.error`. -/
inductive UserMessage
  | warning (msg : String)
  | error (msg : String)
deriving DecidableEq

/-- What `get_stock_data` hands back: the returned value (`none` models
Python's `None`) together with the message it displayed, if any. -/
structure FetchOutcome where
  result : Option (List RawRow)
  message : Option UserMessage
deriving DecidableEq

/-- Embeds `get_stock_data` (app.py lines 19-30): an empty download yields a
warning and `None`; any exception is caught, reported as an error, and
yields `None`; otherwise the downloaded table is returned unchanged. -/
def get_stock_data (ticker_symbol : String) : DownloadResult → FetchOutcome
  | .table rows =>
      if rows.isEmpty then
        { result := none
          message := some (.warning ("No data found for " ++ ticker_symbol ++
            ". It might be delisted or an incorrect ticker.")) }
      else
        { result := some rows, message := none }
  | .exn e =>
      { result := none
        message := some (.error ("Error fetching data for " ++ ticker_symbol ++
          ": " ++ e)) }

/-- The caller's guard on app.py line 94:
`data is not None and not data.empty`. -/
def rendersData (r : Option (List RawRow)) : Bool :=
  match r with
  | none => false
  | some rows => !rows.isEmpty

/-- A raw row whose four OHLC cells are all missing. -/
def allNullRaw : RawRow :=
  { date := 0, open_ := .null, high := .null, low := .null, close := .null,
    volume := .num 5 }

/-- A raw row with a single numeric OHLC cell and two non-numeric cells. -/
def oneValueRaw : RawRow :=
  { date := 1, open_ := .nonnum, high := .num 12, low := .null,
    close := .nonnum, volume := .null }

/-- C1: the cleaning step removes exactly the all-null rows: no cleaned row
has open, high, low and close all null; every coerced row with at least one
non-null value among open/high/low/close is retained; the cleaned series is
a subsequence of the coerced series (no reordering or duplication); and the
coercion sends non-numeric cells to null. -/
theorem cleaning_drops_exactly_all_null_rows (raws : List RawRow) :
    (∀ r ∈ cleanData raws,
      ¬(r.open_ = none ∧ r.high = none ∧ r.low = none ∧ r.close = none)) ∧
    (∀ rr ∈ raws,
      ((coerceRow rr).open_ ≠ none ∨ (coerceRow rr).high ≠ none ∨
       (coerceRow rr).low ≠ none ∨ (coerceRow rr).close ≠ none) →
      coerceRow rr ∈ cleanData raws) ∧
    List.Sublist (cleanData raws) (raws.map coerceRow) ∧
    (∀ rr : RawRow, rr.close = RawCell.nonnum → (coerceRow rr).close = none) := by
  refine ⟨?_, ?_, List.filter_sublist _, ?_⟩
  · intro r hr hall
    have hk : keepRow r = true := (List.mem_filter.mp hr).2
    obtain ⟨h1, h2, h3, h4⟩ := hall
    simp [keepRow, h1, h2, h3, h4] at hk
  · intro rr hrr hsome
    refine List.mem_filter.mpr ⟨List.mem_map_of_mem _ hrr, ?_⟩
    simp only [keepRow, Bool.or_eq_true, Option.isSome_iff_ne_none]
    tauto
  · intro rr h
    simp [coerceRow, h, toNumericCell]

/-- Witness for C1 at a concrete two-row table: the coerced row that keeps a
non-null high is retained by the cleaning step. -/
theorem cleaning_drops_exactly_all_null_rows_witness :
    coerceRow oneValueRaw ∈ cleanData [allNullRaw, oneValueRaw] :=
  (cleaning_drops_exactly_all_null_rows [allNullRaw, oneValueRaw]).2.1 oneValueRaw
    (by decide) (by decide)

/-- C2: any provider exception is caught and reported as an error with a
null result; a zero-row download is reported as a warning (not an error)
with a null result; no exception propagates (the embedding is total); and
the caller's guard treats the null result and the empty result identically. -/
theorem fetch_failure_and_empty_yield_null (t e : String) :
    (get_stock_data t (.exn e) =
      { result := none
        message := some (.error ("Error fetching data for " ++ t ++ ": " ++ e)) }) ∧
    (get_stock_data t (.table []) =
      { result := none
        message := some (.warning ("No data found for " ++ t ++
          ". It might be delisted or an incorrect ticker.")) }) ∧
    rendersData none = false ∧
    rendersData (some []) = rendersData none :=
  ⟨rfl, rfl, rfl, rfl⟩

/-- C10: the fetch operation never returns an empty series: whenever it
returns a table at all, that table has at least one row. -/
theorem fetch_result_never_empty (t : String) (res : DownloadResult)
    (rows : List RawRow) (h : (get_stock_data t res).result = some rows) :
    rows ≠ [] := by
  cases res with
  | table rs =>
      by_cases he : rs.isEmpty
      · simp [get_stock_data, he] at h
      · simp only [get_stock_data, he, if_neg, Bool.false_eq_true,
          not_false_iff, if_false] at h
        simp only [Option.some.injEq] at h
        subst h
        simpa using he
  | exn e => simp [get_stock_data] at h

/-- Witness for C10: at a concrete one-row download the fetch returns that
one-row table, which is non-empty. -/
theorem fetch_result_never_empty_witness :
    (get_stock_data "RELIANCE.NS" (.table [allNullRaw])).result = some [allNullRaw] ∧
    ([allNullRaw] : List RawRow) ≠ [] :=
  ⟨rfl, fetch_result_never_empty "RELIANCE.NS" (.table [allNullRaw]) [allNullRaw] rfl⟩

/-- The first `a` tag found inside a story block; `href` is its href
attribute when that attribute is present. -/
structure ATag where
  href : Option String
deriving DecidableEq

/-- One `div` element of class `eachStory`, as seen by the scraper loop:
`h3` is the stripped text of the first heading when a truthy one is found,
`a` is the first link tag when a truthy one is found. The stripped text may
be empty, for instance for a whitespace-only heading. -/
structure Story where
  h3 : Option String
  a : Option ATag
deriving DecidableEq

/-- A scraped news item: headline text and link URL. -/
structure NewsItem where
  headline : String
  link : String
deriving DecidableEq

/-- The fixed base origin prepended to every scraped href (app.py line 50). -/
def etBase : String := "https://economictimes.indiatimes.com"

/-- Embeds one iteration of the scraper loop (app.py lines 44-51): an item
is produced iff the story has its heading, its link tag and an href
attribute; the link is the base origin concatenated with the href. -/
def extractStory (s : Story) : Option NewsItem :=
  match s.h3, s.a with
  | some headline, some tag =>
      match tag.href with
      | some hr => some { headline := headline, link := etBase ++ hr }
      | none => none
  | _, _ => none

/-- Embeds `soup.find_all('div', class_='eachStory', limit=10)` followed by
the extraction loop (app.py lines 41-52): the first 10 story containers are
taken, then each is extracted or skipped. -/
def scrapeStories (page : List Story) : List NewsItem :=
  (page.take 10).filterMap extractStory

/-- Outcome of the page fetch: a parsed page, a requests error (including
one raised by `raise_for_status`), or any other error during scraping. -/
inductive FetchPageResult
  | success (page : List Story)
  | requestError (msg : String)
  | otherError (msg : String)
deriving DecidableEq

/-- Embeds `scrape_market_news` (app.py lines 32-58): both except branches
return the empty list; a fetched page goes through the extraction loop. -/
def scrape_market_news : FetchPageResult → List NewsItem
  | .success page => scrapeStories page
  | .requestError _ => []
  | .otherError _ => []

/-- Over a list on which the extraction never fails, `filterMap` keeps the
length. -/
theorem length_filterMap_of_all_isSome {α β : Type} (f : α → Option β)
    (l : List α) (h : ∀ x ∈ l, (f x).isSome) :
    (l.filterMap f).length = l.length := by
  induction l with
  | nil => rfl
  | cons x xs ih =>
      obtain ⟨y, hy⟩ := Option.isSome_iff_exists.mp (h x (List.mem_cons_self x xs))
      rw [List.filterMap_cons, hy]
      simp [ih (fun z hz => h z (List.mem_cons_of_mem _ hz))]

/-- A `filterMap` over a `take` is an initial segment of the `filterMap`
over the whole list. -/
theorem filterMap_take_eq_take {α β : Type} (f : α → Option β) (n : ℕ)
    (l : List α) :
    ∃ k, (l.take n).filterMap f = (l.filterMap f).take k := by
  refine ⟨((l.take n).filterMap f).length, ?_⟩
  have h1 : l.filterMap f = (l.take n).filterMap f ++ (l.drop n).filterMap f := by
    rw [← List.filterMap_append, List.take_append_drop]
  rw [h1, List.take_left]

/-- C3: the scraper returns at most 10 items; the result is an initial
segment of the page-order extraction of the story blocks; a block missing
its heading, its link tag or the href attribute contributes no item; and a
page of 15 fully matching blocks yields exactly 10 items. -/
theorem scraper_limit_and_skip (page : List Story) :
    (scrape_market_news (.success page)).length ≤ 10 ∧
    (∃ k, scrape_market_news (.success page) = (page.filterMap extractStory).take k) ∧
    (∀ s : Story, s.h3 = none → extractStory s = none) ∧
    (∀ s : Story, s.a = none → extractStory s = none) ∧
    (∀ s : Story, ∀ t, s.a = some t → t.href = none → extractStory s = none) ∧
    (page.length = 15 → (∀ s ∈ page, (extractStory s).isSome) →
      (scrape_market_news (.success page)).length = 10) := by
  refine ⟨?_, ?_, ?_, ?_, ?_, ?_⟩
  · exact le_trans (List.length_filterMap_le _ _) (List.length_take_le _ _)
  · exact filterMap_take_eq_take extractStory 10 page
  · intro s h
    cases ha : s.a <;> simp [extractStory, h]
  · intro s h
    cases hh3 : s.h3 <;> simp [extractStory, h]
  · intro s t ha hh
    cases hh3 : s.h3 <;> simp [extractStory, ha, hh, hh3]
  · intro hlen hall
    have hred : scrape_market_news (.success page) = (page.take 10).filterMap extractStory := rfl
    rw [hred, length_filterMap_of_all_isSome extractStory (page.take 10)
      (fun x hx => hall x (List.mem_of_mem_take hx))]
    simp [List.length_take, hlen]

/-- A fully matching story block. -/
def fullStory : Story :=
  { h3 := some "Markets rally", a := some { href := some "/markets/stocks/news/x" } }

/-- Witness for C3: a concrete page of 15 fully matching story blocks yields
exactly 10 items. -/
theorem scraper_limit_and_skip_witness :
    (scrape_market_news (.success (List.replicate 15 fullStory))).length = 10 :=
  (scraper_limit_and_skip (List.replicate 15 fullStory)).2.2.2.2.2 (by simp)
    (by intro s hs; rw [List.eq_of_mem_replicate hs]; decide)

/-- C5: both except branches of the scraper return the empty list: any
requests error and any other error during fetching or parsing fail closed,
with no retry (the embedding consumes a single fetch outcome). -/
theorem scraper_fails_closed (e1 e2 : String) :
    scrape_market_news (.requestError e1) = [] ∧
    scrape_market_news (.otherError e2) = [] :=
  ⟨rfl, rfl⟩

/-- A story block whose heading tag is present but whose stripped text is
empty, as a whitespace-only heading produces. -/
def emptyHeadlineStory : Story :=
  { h3 := some "", a := some { href := some "/markets/x" } }

/-- A story block whose href is already an absolute URL. -/
def absoluteHrefStory : Story :=
  { h3 := some "Global cues", a := some { href := some "https://example.com/a" } }

/-- Modelled from the spec: resolving an href against the fixed base origin,
as URL resolution would do it — an absolute href stands on its own, a
relative one is appended to the base. -/
def resolveAgainstBase (href : String) : String :=
  if href.data.take 4 = "http".data then href else etBase ++ href

/-- C6 counterexample: a story with an empty-text heading produces an item
whose headline is empty, and a story with an absolute href produces a link
that is the plain concatenation of base and href, which differs from the
resolution of that href against the base origin. -/
theorem news_item_fields_counterexample :
    scrape_market_news (.success [emptyHeadlineStory]) =
      [{ headline := "", link := "https://economictimes.indiatimes.com/markets/x" }] ∧
    scrape_market_news (.success [absoluteHrefStory]) =
      [{ headline := "Global cues",
         link := "https://economictimes.indiatimes.comhttps://example.com/a" }] ∧
    resolveAgainstBase "https://example.com/a" = "https://example.com/a" ∧
    "https://economictimes.indiatimes.comhttps://example.com/a" ≠
      resolveAgainstBase "https://example.com/a" := by
  refine ⟨rfl, rfl, by decide, by decide⟩

/-- Appending anything to the base origin gives a non-empty string. -/
theorem etBase_append_ne_empty (s : String) : etBase ++ s ≠ "" := by
  intro h
  have h2 := congrArg String.length h
  rw [String.length_append] at h2
  have e1 : etBase.length = 36 := rfl
  have e2 : ("" : String).length = 0 := rfl
  omega

/-- C6 amended: every item in the scraper result comes from a story block of
the page that has a heading, a link tag and an href attribute; its headline
is that heading's stripped text, which may be empty; its link is the fixed
base origin concatenated with the href, and is therefore non-empty. -/
theorem news_item_fields_amended (page : List Story) :
    ∀ item ∈ scrape_market_news (.success page),
      item.link ≠ "" ∧
      ∃ s ∈ page, ∃ hr, s.h3 = some item.headline ∧
        (∃ t, s.a = some t ∧ t.href = some hr) ∧ item.link = etBase ++ hr := by
  intro item hmem
  obtain ⟨s, hs, hx⟩ := List.mem_filterMap.mp hmem
  have hspage : s ∈ page := List.mem_of_mem_take hs
  cases hh3 : s.h3 with
  | none => cases ha : s.a <;> simp [extractStory, hh3, ha] at hx
  | some headline =>
      cases ha : s.a with
      | none => simp [extractStory, hh3, ha] at hx
      | some tag =>
          cases hhr : tag.href with
          | none => simp [extractStory, hh3, ha, hhr] at hx
          | some hr =>
              simp only [extractStory, hh3, ha, hhr] at hx
              obtain ⟨hhead, hlink⟩ := NewsItem.mk.injEq _ _ _ _ ▸ (Option.some.injEq _ _ ▸ hx)
              refine ⟨?_, s, hspage, hr, ?_, ⟨tag, ha, hhr⟩, ?_⟩
              · rw [← hlink]
                exact etBase_append_ne_empty hr
              · rw [hh3, ← hhead]
              · exact hlink.symm

/-- A fully matching story block used as a concrete page. -/
def fullStoryItem : NewsItem :=
  { headline := "Markets rally",
    link := "https://economictimes.indiatimes.com/markets/stocks/news/x" }

/-- Witness for the amended C6 at a concrete one-story page: the produced
item has a non-empty link. -/
theorem news_item_fields_amended_witness :
    fullStoryItem.link ≠ "" :=
  (news_item_fields_amended [fullStory] fullStoryItem (by decide)).1

/-- NaN-propagating subtraction on nullable values. -/
def optSub : Option ℚ → Option ℚ → Option ℚ
  | some a, some b => some (a - b)
  | _, _ => none

/-- NaN-propagating division on nullable values. Rational division stands in
for float division; the code never divides when fewer than two rows exist. -/
def optDiv : Option ℚ → Option ℚ → Option ℚ
  | some a, some b => some (a / b)
  | _, _ => none

/-- NaN-propagating multiplication on nullable values. -/
def optMul : Option ℚ → Option ℚ → Option ℚ
  | some a, some b => some (a * b)
  | _, _ => none

/-- Embeds `Series.iloc[-1]`; the code only evaluates it on non-empty data,
where it is the last entry of the column. -/
def ilocLast (xs : List (Option ℚ)) : Option ℚ := xs.getLast?.getD none

/-- Embeds `Series.iloc[-2]`: the last entry of the column without its final
element; the code only evaluates it when at least two entries exist. -/
def ilocPrev (xs : List (Option ℚ)) : Option ℚ := xs.dropLast.getLast?.getD none

/-- Embeds `Series.max()` with pandas' default NaN skipping: the maximum of
the non-null entries, null iff there are none. -/
def seriesMax : List (Option ℚ) → Option ℚ
  | [] => none
  | none :: xs => seriesMax xs
  | some v :: xs =>
      match seriesMax xs with
      | none => some v
      | some m => some (max v m)

/-- Embeds `Series.min()` with pandas' default NaN skipping: the minimum of
the non-null entries, null iff there are none. -/
def seriesMin : List (Option ℚ) → Option ℚ
  | [] => none
  | none :: xs => seriesMin xs
  | some v :: xs =>
      match seriesMin xs with
      | none => some v
      | some m => some (min v m)

/-- The change metrics as displayed: the string "N/A" or a numeric value
(null modelling NaN). -/
inductive MetricDisplay
  | na
  | value (v : Option ℚ)
deriving DecidableEq

/-- The key performance metrics of app.py lines 110-127. -/
structure KeyMetrics where
  latest_price : Option ℚ
  price_change : MetricDisplay
  percent_change : MetricDisplay
  period_high : Option ℚ
  period_low : Option ℚ
deriving DecidableEq

/-- Embeds the key-metrics block (app.py lines 114-127): the last close; if
more than one close exists, the change against the previous close and its
percentage, otherwise "N/A" for both; the maximum of the High column and the
minimum of the Low column. -/
def keyMetrics (rows : List Row) : KeyMetrics :=
  { latest_price := ilocLast (rows.map Row.close)
    price_change :=
      if (rows.map Row.close).length > 1 then
        MetricDisplay.value
          (optSub (ilocLast (rows.map Row.close)) (ilocPrev (rows.map Row.close)))
      else MetricDisplay.na
    percent_change :=
      if (rows.map Row.close).length > 1 then
        MetricDisplay.value (optMul (optDiv
          (optSub (ilocLast (rows.map Row.close)) (ilocPrev (rows.map Row.close)))
          (ilocPrev (rows.map Row.close))) (some 100))
      else MetricDisplay.na
    period_high := seriesMax (rows.map Row.high)
    period_low := seriesMin (rows.map Row.low) }

/-- C4: with at least two rows the change metric is last close minus
previous close and the percent-change metric is that change divided by the
previous close times 100; with exactly one row both metrics display "N/A"
and no division occurs. -/
theorem metrics_change_formula (rows : List Row) :
    (∀ a b : ℚ, 2 ≤ rows.length →
      ilocLast (rows.map Row.close) = some a →
      ilocPrev (rows.map Row.close) = some b →
      (keyMetrics rows).price_change = MetricDisplay.value (some (a - b)) ∧
      (keyMetrics rows).percent_change =
        MetricDisplay.value (some ((a - b) / b * 100))) ∧
    (rows.length = 1 →
      (keyMetrics rows).price_change = MetricDisplay.na ∧
      (keyMetrics rows).percent_change = MetricDisplay.na) := by
  constructor
  · intro a b h2 ha hb
    have hlen : (rows.map Row.close).length > 1 := by
      rw [List.length_map]; omega
    constructor
    · show (if (rows.map Row.close).length > 1 then _ else _) = _
      rw [if_pos hlen, ha, hb]
      rfl
    · show (if (rows.map Row.close).length > 1 then _ else _) = _
      rw [if_pos hlen, ha, hb]
      rfl
  · intro h1
    have hlen : ¬((rows.map Row.close).length > 1) := by
      rw [List.length_map]; omega
    exact ⟨if_neg hlen, if_neg hlen⟩

/-- A cleaned two-row series with closes 105 then 95. -/
def twoRows : List Row :=
  [ { date := 0, open_ := some 104, high := some 106, low := some 103,
      close := some 105, volume := some 1000 },
    { date := 1, open_ := some 96, high := some 97, low := some 94,
      close := some 95, volume := some 1200 } ]

/-- A cleaned one-row series. -/
def oneRow : List Row :=
  [ { date := 0, open_ := some 100, high := some 101, low := some 99,
      close := some 100, volume := some 800 } ]

/-- Witness for C4: on the concrete two-row series the change is 95 − 105,
and on the concrete one-row series the change displays "N/A". -/
theorem metrics_change_formula_witness :
    (keyMetrics twoRows).price_change = MetricDisplay.value (some (95 - 105)) ∧
    (keyMetrics oneRow).price_change = MetricDisplay.na :=
  ⟨((metrics_change_formula twoRows).1 95 105 (by decide) (by decide) (by decide)).1,
   ((metrics_change_formula oneRow).2 (by decide)).1⟩

/-- A column whose skipping maximum is null has no non-null entry. -/
theorem seriesMax_eq_none_iff_no_value (xs : List (Option ℚ))
    (h : seriesMax xs = none) : ∀ v : ℚ, some v ∉ xs := by
  induction xs with
  | nil => simp
  | cons x xs ih =>
      cases x with
      | none =>
          rw [seriesMax] at h
          intro v hv
          rcases List.mem_cons.mp hv with h1 | h1
          · exact Option.noConfusion h1
          · exact ih h v h1
      | some w =>
          rw [seriesMax] at h
          cases hx : seriesMax xs <;> rw [hx] at h <;> exact Option.noConfusion h

/-- The skipping maximum of a column is attained by a non-null entry and
bounds every non-null entry from above. -/
theorem seriesMax_is_greatest (xs : List (Option ℚ)) (m : ℚ)
    (h : seriesMax xs = some m) :
    some m ∈ xs ∧ ∀ v : ℚ, some v ∈ xs → v ≤ m := by
  induction xs generalizing m with
  | nil => exact Option.noConfusion h
  | cons x xs ih =>
      cases x with
      | none =>
          rw [seriesMax] at h
          obtain ⟨hmem, hub⟩ := ih m h
          refine ⟨List.mem_cons_of_mem _ hmem, ?_⟩
          intro v hv
          rcases List.mem_cons.mp hv with h1 | h1
          · exact Option.noConfusion h1
          · exact hub v h1
      | some w =>
          rw [seriesMax] at h
          cases hx : seriesMax xs with
          | none =>
              rw [hx] at h
              injection h with h
              subst h
              refine ⟨List.mem_cons_self _ _, ?_⟩
              intro v hv
              rcases List.mem_cons.mp hv with h1 | h1
              · injection h1 with h1
                exact le_of_eq h1
              · exact absurd h1 (seriesMax_eq_none_iff_no_value xs hx v)
          | some m0 =>
              rw [hx] at h
              injection h with h
              obtain ⟨hmem, hub⟩ := ih m0 hx
              subst h
              constructor
              · rcases le_total w m0 with hc | hc
                · rw [max_eq_right hc]
                  exact List.mem_cons_of_mem _ hmem
                · rw [max_eq_left hc]
                  exact List.mem_cons_self _ _
              · intro v hv
                rcases List.mem_cons.mp hv with h1 | h1
                · injection h1 with h1
                  exact h1 ▸ le_max_left _ _
                · exact le_trans (hub v h1) (le_max_right _ _)

/-- A column whose skipping minimum is null has no non-null entry. -/
theorem seriesMin_eq_none_iff_no_value (xs : List (Option ℚ))
    (h : seriesMin xs = none) : ∀ v : ℚ, some v ∉ xs := by
  induction xs with
  | nil => simp
  | cons x xs ih =>
      cases x with
      | none =>
          rw [seriesMin] at h
          intro v hv
          rcases List.mem_cons.mp hv with h1 | h1
          · exact Option.noConfusion h1
          · exact ih h v h1
      | some w =>
          rw [seriesMin] at h
          cases hx : seriesMin xs <;> rw [hx] at h <;> exact Option.noConfusion h

/-- The skipping minimum of a column is attained by a non-null entry and
bounds every non-null entry from below. -/
theorem seriesMin_is_least (xs : List (Option ℚ)) (m : ℚ)
    (h : seriesMin xs = some m) :
    some m ∈ xs ∧ ∀ v : ℚ, some v ∈ xs → m ≤ v := by
  induction xs generalizing m with
  | nil => exact Option.noConfusion h
  | cons x xs ih =>
      cases x with
      | none =>
          rw [seriesMin] at h
          obtain ⟨hmem, hlb⟩ := ih m h
          refine ⟨List.mem_cons_of_mem _ hmem, ?_⟩
          intro v hv
          rcases List.mem_cons.mp hv with h1 | h1
          · exact Option.noConfusion h1
          · exact hlb v h1
      | some w =>
          rw [seriesMin] at h
          cases hx : seriesMin xs with
          | none =>
              rw [hx] at h
              injection h with h
              subst h
              refine ⟨List.mem_cons_self _ _, ?_⟩
              intro v hv
              rcases List.mem_cons.mp hv with h1 | h1
              · injection h1 with h1
                exact le_of_eq h1.symm
              · exact absurd h1 (seriesMin_eq_none_iff_no_value xs hx v)
          | some m0 =>
              rw [hx] at h
              injection h with h
              obtain ⟨hmem, hlb⟩ := ih m0 hx
              subst h
              constructor
              · rcases le_total w m0 with hc | hc
                · rw [min_eq_left hc]
                  exact List.mem_cons_self _ _
                · rw [min_eq_right hc]
                  exact List.mem_cons_of_mem _ hmem
              · intro v hv
                rcases List.mem_cons.mp hv with h1 | h1
                · injection h1 with h1
                  exact h1 ▸ min_le_left _ _
                · exact le_trans (min_le_right _ _) (hlb v h1)

/-- The spec's example series: three trading days with closes 100, 105, 95
and High/Low columns distinct from the closes. -/
def exampleRows : List Row :=
  [ { date := 0, open_ := some 99, high := some 101, low := some 98,
      close := some 100, volume := some 1000 },
    { date := 1, open_ := some 100, high := some 106, low := some 99,
      close := some 105, volume := some 1100 },
    { date := 2, open_ := some 105, high := some 105, low := some 94,
      close := some 95, volume := some 1200 } ]

/-- C7: the period-high metric is the maximum of the High column and the
period-low metric is the minimum of the Low column; on the spec's example
series the metrics are last price 95, change −10, percent change −200/21,
period high 106 and period low 94 — taken from the High/Low columns, as the
period high differs from the maximum of the closes. -/
theorem period_high_low_from_columns (rows : List Row) :
    (∀ m : ℚ, (keyMetrics rows).period_high = some m →
      some m ∈ rows.map Row.high ∧ ∀ v : ℚ, some v ∈ rows.map Row.high → v ≤ m) ∧
    (∀ m : ℚ, (keyMetrics rows).period_low = some m →
      some m ∈ rows.map Row.low ∧ ∀ v : ℚ, some v ∈ rows.map Row.low → m ≤ v) ∧
    ((keyMetrics exampleRows).latest_price = some 95 ∧
     (keyMetrics exampleRows).price_change = MetricDisplay.value (some (-10)) ∧
     (keyMetrics exampleRows).percent_change = MetricDisplay.value (some (-200 / 21)) ∧
     (keyMetrics exampleRows).period_high = some 106 ∧
     (keyMetrics exampleRows).period_low = some 94 ∧
     (keyMetrics exampleRows).period_high ≠ seriesMax (exampleRows.map Row.close)) := by
  refine ⟨?_, ?_, ?_⟩
  · intro m hm
    exact seriesMax_is_greatest _ m hm
  · intro m hm
    exact seriesMin_is_least _ m hm
  · refine ⟨?_, ?_, ?_, ?_, ?_, ?_⟩ <;>
      norm_num [keyMetrics, exampleRows, ilocLast, ilocPrev, optSub, optDiv,
        optMul, seriesMax, seriesMin, max_def, min_def]

/-- Witness for C7: on the example series the period high 106 is attained by
an entry of the High column. -/
theorem period_high_low_from_columns_witness :
    some (106 : ℚ) ∈ exampleRows.map Row.high :=
  ((period_high_low_from_columns exampleRows).1 106
    (period_high_low_from_columns exampleRows).2.2.2.2.2.1).1

/-- Descending date order on rows: the order behind
`sort_index(ascending=False)`. -/
def dateGe (a b : Row) : Prop := b.date ≤ a.date

instance : DecidableRel dateGe :=
  fun a b => inferInstanceAs (Decidable (b.date ≤ a.date))

instance : IsTotal Row dateGe :=
  ⟨fun a b => le_total b.date a.date⟩

instance : IsTrans Row dateGe :=
  ⟨fun _ _ _ h1 h2 => le_trans h2 h1⟩

/-- Embeds `data.sort_index(ascending=False)` (app.py line 173): the cleaned
series sorted by date in descending order. -/
def sortDescByDate (rows : List Row) : List Row :=
  List.insertionSort dateGe rows

/-- C8: the rendered table is the cleaned series reordered: it has exactly
as many rows as the cleaned series, is a permutation of it (no row lost or
duplicated), and is ordered by descending date. -/
theorem table_keeps_all_rows_sorted (rows : List Row) :
    (sortDescByDate rows).length = rows.length ∧
    List.Perm (sortDescByDate rows) rows ∧
    List.Sorted dateGe (sortDescByDate rows) :=
  ⟨(List.perm_insertionSort dateGe rows).length_eq,
   List.perm_insertionSort dateGe rows,
   List.sorted_insertionSort dateGe rows⟩

/-- What one user-triggered render pass produces: either the dashboard with
its metrics and its table, or one of the two error banners, or the idle
prompt. -/
inductive RenderOutcome
  | dashboard (metrics : KeyMetrics) (table : List Row)
  | errorNoValidData
  | errorCouldNotRetrieve
  | awaitingInput
deriving DecidableEq

/-- Embeds the main dashboard flow (app.py lines 90-197): with the analyze
button pressed and a non-empty ticker, a null or empty fetch result reports
the retrieval error; a non-empty fetch result is cleaned, an empty cleaned
series reports the no-valid-data error, and a non-empty one renders the
metrics and the descending-by-date table. -/
def renderMain (analyze_button : Bool) (ticker_input : String)
    (fetched : Option (List RawRow)) : RenderOutcome :=
  if analyze_button ∧ ticker_input ≠ "" then
    match fetched with
    | some raw =>
        if raw.isEmpty then RenderOutcome.errorCouldNotRetrieve
        else
          if (cleanData raw).isEmpty then RenderOutcome.errorNoValidData
          else
            RenderOutcome.dashboard (keyMetrics (cleanData raw))
              (sortDescByDate (cleanData raw))
    | none => RenderOutcome.errorCouldNotRetrieve
  else RenderOutcome.awaitingInput

/-- C9: when the fetched series is non-empty but cleaning drops every row,
the render pass reports the no-valid-data error and renders no dashboard
(no metrics, charts or table). -/
theorem empty_after_cleaning_reports_error (ticker_input : String)
    (raw : List RawRow) (ht : ticker_input ≠ "") (hraw : raw ≠ [])
    (hclean : cleanData raw = []) :
    renderMain true ticker_input (some raw) = RenderOutcome.errorNoValidData ∧
    ∀ m tbl, renderMain true ticker_input (some raw) ≠
      RenderOutcome.dashboard m tbl := by
  have hre : raw.isEmpty = false := by
    simpa using hraw
  have hce : (cleanData raw).isEmpty = true := by
    simpa using hclean
  have h1 : renderMain true ticker_input (some raw) = RenderOutcome.errorNoValidData := by
    simp [renderMain, ht, hre, hce]
  refine ⟨h1, ?_⟩
  intro m tbl hcontra
  rw [h1] at hcontra
  exact RenderOutcome.noConfusion hcontra

/-- Witness for C9 at a concrete all-null one-row download: the render pass
reports the no-valid-data error. -/
theorem empty_after_cleaning_reports_error_witness :
    renderMain true "RELIANCE.NS" (some [allNullRaw]) =
      RenderOutcome.errorNoValidData :=
  (empty_after_cleaning_reports_error "RELIANCE.NS" [allNullRaw] (by decide)
    (by decide) (by decide)).1
